import Mathlib

/-!
Verification development for the Hyperliquid BTC order-scaling tool
(`scale_orders.py`). Monetary and size quantities are exact decimals in
the source (Python `Decimal`); they are embedded as rationals (`ℚ`).
Dict-shaped API records become structures with `Option` fields, mirroring
`dict.get` with its defaults.
-/

namespace ScaleOrders

/-- Truncation toward zero on rationals, the behaviour of Python `int()` on
floats and of `Decimal.quantize` with `ROUND_DOWN`. -/
def truncTowardZero (x : ℚ) : ℤ :=
if 0 ≤ x then ⌊x⌋ else ⌈x⌉

/-- `Decimal.quantize(Decimal("0.001"), rounding=ROUND_DOWN)`: truncate toward
zero at the third decimal place. -/
def quantize3Down (x : ℚ) : ℚ :=
(truncTowardZero (x * 1000) : ℚ) / 1000

/-- The spec's `floor3`: round toward zero at the third decimal place for
non-negative inputs, expressed with the integer floor. -/
def floor3 (x : ℚ) : ℚ :=
((⌊x * 1000⌋ : ℤ) : ℚ) / 1000

/-- An open-order record as returned by the API: `coin`, `sz` (decimal
string), `limitPx` (decimal string), `side`, optional `timestamp`.
`Option` models a possibly missing key. -/
structure RawOrder where
  coin : Option String
  sz : Option ℚ
  limitPx : Option ℚ
  side : Option String
  timestamp : Option ℤ
deriving Repr, DecidableEq

/-- A position record inside `assetPositions[i].position`: `coin`, signed
size `szi`, entry price `entryPx`. -/
structure Position where
  coin : Option String
  szi : Option ℚ
  entryPx : Option ℚ
deriving Repr, DecidableEq

/-- One element of `assetPositions` in the clearinghouse state. -/
structure AssetPosition where
  position : Position
deriving Repr, DecidableEq

/-- The account state returned by the `clearinghouseState` API call. -/
structure AccountState where
  assetPositions : List AssetPosition
deriving Repr, DecidableEq

/-- A fill record: instrument and `time` timestamp (milliseconds). -/
structure Fill where
  coin : Option String
  time : Option ℤ
deriving Repr, DecidableEq

/-- The scaled-order record built by `scale_orders`. -/
structure ScaledOrder where
  side : String
  price : ℚ
  original_size : ℚ
  scaled_size : ℚ
  notional : ℚ
deriving Repr, DecidableEq

/-- `get_btc_position`: first `position` among `assetPositions` whose
`coin` equals `"BTC"`, else `None`. -/
def get_btc_position (account_state : AccountState) : Option Position :=
(account_state.assetPositions.map AssetPosition.position).find?
  (fun p => p.coin == some "BTC")

/-- `get_btc_orders`: keep only the orders whose `coin` is `"BTC"`. -/
def get_btc_orders (orders : List RawOrder) : List RawOrder :=
orders.filter (fun o => o.coin == some "BTC")

/-- `determine_position_direction`: `"long"` if `szi > 0`, `"short"` if
`szi < 0`, `None` otherwise; a missing `szi` defaults to `0`. -/
def determine_position_direction (position : Position) : Option String :=
let size := position.szi.getD 0
if 0 < size then some "long"
else if size < 0 then some "short"
else none

/-- `get_position_size`: absolute value of `szi` (default `0`). -/
def get_position_size (position : Position) : ℚ :=
|position.szi.getD 0|

/-- Body of the `scale_orders` loop for one order: default missing `sz` / `limitPx`
to `0` and `side` to `""`, take `abs` of the size, truncate
`original_size * ratio` down at three decimals, recompute the notional. -/
def scale_order (ratio : ℚ) (order : RawOrder) : ScaledOrder :=
let original_size := |order.sz.getD 0|
let price := order.limitPx.getD 0
let side := order.side.getD ""
let scaled_size := quantize3Down (original_size * ratio)
{ side := side, price := price, original_size := original_size,
  scaled_size := scaled_size, notional := scaled_size * price }

/-- `scale_orders`: scale every order in the list by the ratio. -/
def scale_orders (orders : List RawOrder) (ratio : ℚ) : List ScaledOrder :=
orders.map (scale_order ratio)

/-- `str.upper()` on the (ASCII) side strings: uppercase every character. -/
def strUpper (s : String) : String :=
⟨s.data.map Char.toUpper⟩

/-- The figures printed by `print_long_summary` / `print_short_summary`:
scaled current position, side totals, net position, the optional average
entry (absent exactly when no average-entry line is printed), and the
capital required. -/
structure SideSummary where
  scaled_current_size : ℚ
  total_size : ℚ
  total_cost : ℚ
  net_position : ℚ
  avg_entry : Option ℚ
  capital_required : ℚ
deriving Repr, DecidableEq

/-- `print_long_summary`: `none` when there is no pending buy order
(nothing summarised); otherwise the buy-fill projection figures. -/
def print_long_summary (scaled_orders : List ScaledOrder)
    (current_position_size current_entry_price ratio : ℚ) : Option SideSummary :=
let buy_orders := scaled_orders.filter (fun o => strUpper o.side == "B")
if buy_orders.isEmpty then none
else
  let total_buy_size := (buy_orders.map ScaledOrder.scaled_size).sum
  let total_buy_cost := (buy_orders.map (fun o => o.scaled_size * o.price)).sum
  let scaled_current_size := current_position_size * ratio
  let net_position := scaled_current_size + total_buy_size
  let avg_entry : Option ℚ :=
    if 0 < net_position then
      if 0 < scaled_current_size then
        some ((scaled_current_size * current_entry_price + total_buy_cost) / net_position)
      else
        some (if 0 < total_buy_size then total_buy_cost / total_buy_size else 0)
    else none
  some { scaled_current_size := scaled_current_size, total_size := total_buy_size,
         total_cost := total_buy_cost, net_position := net_position,
         avg_entry := avg_entry, capital_required := total_buy_cost }

/-- `print_short_summary`: `none` when there is no pending sell order;
otherwise the sell-fill projection figures. -/
def print_short_summary (scaled_orders : List ScaledOrder)
    (current_position_size current_entry_price ratio : ℚ) : Option SideSummary :=
let sell_orders := scaled_orders.filter (fun o => strUpper o.side == "A")
if sell_orders.isEmpty then none
else
  let total_sell_size := (sell_orders.map ScaledOrder.scaled_size).sum
  let total_sell_value := (sell_orders.map (fun o => o.scaled_size * o.price)).sum
  let scaled_current_size := current_position_size * ratio
  let net_position := scaled_current_size - total_sell_size
  let avg_entry : Option ℚ :=
    if net_position < 0 then
      if scaled_current_size < 0 then
        some ((|scaled_current_size| * current_entry_price + total_sell_value) / |net_position|)
      else
        some (if 0 < total_sell_size then total_sell_value / total_sell_size else 0)
    else none
  some { scaled_current_size := scaled_current_size, total_size := total_sell_size,
         total_cost := total_sell_value, net_position := net_position,
         avg_entry := avg_entry, capital_required := total_sell_value }

/-- Render `n unit(s) ago`, with the plural `s` exactly when `n ≠ 1`
(the f-string `.. unit{'s' if n != 1 else ''} ago` of the source). -/
def agoPhrase (n : ℤ) (unit : String) : String :=
toString n ++ " " ++ unit ++ (if n = 1 then "" else "s") ++ " ago"

/-- `get_relative_time`: bucket the elapsed seconds (`now` is the current
time in seconds, `timestamp_ms` the instant in milliseconds). Python `int()`
truncates toward zero. -/
def get_relative_time (now : ℚ) (timestamp_ms : ℤ) : String :=
let seconds := now - (timestamp_ms : ℚ) / 1000
if seconds < 60 then "just now"
else if seconds < 3600 then agoPhrase (truncTowardZero (seconds / 60)) "minute"
else if seconds < 86400 then agoPhrase (truncTowardZero (seconds / 3600)) "hour"
else if seconds < 604800 then agoPhrase (truncTowardZero (seconds / 86400)) "day"
else if seconds < 2592000 then agoPhrase (truncTowardZero (seconds / 604800)) "week"
else agoPhrase (truncTowardZero (seconds / 2592000)) "month"

/-- The timestamps collected by `get_last_activity_time`: `timestamp` keys
of the orders followed by `time` keys of the fills. -/
def collect_timestamps (orders : List RawOrder) (fills : List Fill) : List ℤ :=
orders.filterMap RawOrder.timestamp ++ fills.filterMap Fill.time

/-- `get_last_activity_time`: `"Unknown"` when no timestamp was collected,
else the relative time of the maximum collected timestamp. -/
def get_last_activity_time (now : ℚ) (orders : List RawOrder) (fills : List Fill) : String :=
match collect_timestamps orders fills with
| [] => "Unknown"
| t :: ts => get_relative_time now (ts.foldl max t)

/-- The ratio computation of `main` (guard then division): `None` when the
reference size is zero, else `user_btc_size / account_btc_size`. -/
def compute_ratio (position : Position) (user_btc_size : ℚ) : Option ℚ :=
let account_btc_size := get_position_size position
if account_btc_size = 0 then none
else some (user_btc_size / account_btc_size)

/-- Outcome of one run of `main`, one constructor per `sys.exit` site plus
the successful fall-through. `success` carries everything the report
prints: the scaled-order table, the ratio and the two summaries. -/
inductive MainOutcome where
  | noPosition : MainOutcome
  | noDirection : MainOutcome
  | directionMismatch (user_direction account_direction : String) : MainOutcome
  | noPendingOrders : MainOutcome
  | zeroSize : MainOutcome
  | success (scaled : List ScaledOrder) (ratio : ℚ)
      (long_summary short_summary : Option SideSummary) : MainOutcome
deriving Repr, DecidableEq

/-- Process exit code of an outcome: `0` on success and on the benign
"no pending orders" early exit, `1` on every error. -/
def exit_code : MainOutcome → Nat
  | .noPendingOrders => 0
  | .success _ _ _ _ => 0
  | _ => 1

/-- Whether the run scaled orders and printed the scaled-order table. -/
def printed_table : MainOutcome → Bool
  | .success _ _ _ _ => true
  | _ => false

/-- The decision pipeline of `main` after the fetches: extract the BTC
position, derive and validate the direction, filter the orders, guard the
ratio, scale, and build both summaries. -/
def main (user_direction : String) (user_btc_size : ℚ)
    (account_state : AccountState) (orders : List RawOrder) : MainOutcome :=
match get_btc_position account_state with
| none => .noPosition
| some btc_position =>
  match determine_position_direction btc_position with
  | none => .noDirection
  | some account_direction =>
    if account_direction ≠ user_direction then
      .directionMismatch user_direction account_direction
    else
      let btc_orders := get_btc_orders orders
      if btc_orders.isEmpty then .noPendingOrders
      else
        match compute_ratio btc_position user_btc_size with
        | none => .zeroSize
        | some ratio =>
          let scaled := scale_orders btc_orders ratio
          let current_size := btc_position.szi.getD 0
          let current_entry := btc_position.entryPx.getD 0
          .success scaled ratio
            (print_long_summary scaled current_size current_entry ratio)
            (print_short_summary scaled current_size current_entry ratio)

/-- Result of one remote call before error handling. -/
inductive FetchResult (α : Type) where
  | ok (value : α) : FetchResult α
  | err : FetchResult α
deriving Repr, DecidableEq

/-- `fetch_account_state`: a request failure prints an error and exits with
status `1`. -/
def fetch_account_state (r : FetchResult AccountState) : Except Nat AccountState :=
match r with
| .ok v => .ok v
| .err => .error 1

/-- `fetch_open_orders`: a request failure exits with status `1`. -/
def fetch_open_orders (r : FetchResult (List RawOrder)) : Except Nat (List RawOrder) :=
match r with
| .ok v => .ok v
| .err => .error 1

/-- `fetch_user_fills`: a request failure degrades to the empty list and
the run continues. -/
def fetch_user_fills (r : FetchResult (List Fill)) : List Fill :=
match r with
| .ok v => v
| .err => []

/-- The whole run including the three fetches: `Except.error 1` models the
process terminating with exit status `1` inside a fetch; on non-fatal paths
it yields the last-activity string and the `main` outcome. -/
def run (now : ℚ) (user_direction : String) (user_btc_size : ℚ)
    (r_state : FetchResult AccountState) (r_orders : FetchResult (List RawOrder))
    (r_fills : FetchResult (List Fill)) : Except Nat (String × MainOutcome) := do
  let account_state ← fetch_account_state r_state
  let orders ← fetch_open_orders r_orders
  let fills := fetch_user_fills r_fills
  let last_activity := get_last_activity_time now orders fills
  pure (last_activity, main user_direction user_btc_size account_state orders)

/-! ### Concrete sample data (for evaluating the theorems) -/

/-- Scenario B order: buy `0.333333` BTC at `50000`. -/
def sampleOrderB : RawOrder :=
{ coin := some "BTC", sz := some (333333/1000000), limitPx := some 50000,
  side := some "B", timestamp := none }

/-- An order with a negative size and missing price and side keys. -/
def sampleOrderNeg : RawOrder :=
{ coin := none, sz := some (-5), limitPx := none, side := none, timestamp := none }

/-- Scenario E scaled buy order: `0.5` BTC at `50000`, notional `25000`. -/
def sampleScaledBuy : ScaledOrder :=
{ side := "B", price := 50000, original_size := 1/2, scaled_size := 1/2,
  notional := 25000 }

/-- Scenario C position: short BTC, `szi = -0.5`. -/
def samplePositionShort : Position :=
{ coin := some "BTC", szi := some (-1/2), entryPx := some 50000 }

/-- Scenario C account state: a short BTC position, `szi = -0.5`. -/
def sampleShortState : AccountState :=
{ assetPositions := [{ position := samplePositionShort }] }

/-- A long BTC position, `szi = 0.5`, entry `50000`. -/
def samplePositionLong : Position :=
{ coin := some "BTC", szi := some (1/2), entryPx := some 50000 }

/-- An account state with a long BTC position, `szi = 0.5`. -/
def sampleLongState : AccountState :=
{ assetPositions := [{ position := samplePositionLong }] }

/-- An open order on a different instrument (filtered out for BTC). -/
def sampleEthOrder : RawOrder :=
{ coin := some "ETH", sz := some 1, limitPx := some 3000, side := some "B",
  timestamp := none }

/-- A BTC position record whose signed size is exactly zero. -/
def sampleZeroPosition : Position :=
{ coin := some "BTC", szi := some 0, entryPx := some 50000 }

/-- An account state holding only the zero-size BTC position. -/
def sampleZeroState : AccountState :=
{ assetPositions := [{ position := sampleZeroPosition }] }

/-- The buy-fill projection of Scenario E (short `-0.2`, buys `0.5` costing
`25000`): net `0.3`, average entry `50000`. -/
def sampleSummaryE : SideSummary :=
{ scaled_current_size := -1/5, total_size := 1/2, total_cost := 25000,
  net_position := 3/10, avg_entry := some 50000, capital_required := 25000 }

/-- A buy-fill projection whose net position stays short (current `-1`,
buys `0.5`): no average entry. -/
def sampleSummaryF : SideSummary :=
{ scaled_current_size := -1, total_size := 1/2, total_cost := 25000,
  net_position := -1/2, avg_entry := none, capital_required := 25000 }

/-- An open BTC order carrying a placement timestamp. -/
def sampleOrderT : RawOrder :=
{ coin := some "BTC", sz := some (1/10), limitPx := some 50000,
  side := some "B", timestamp := some 1000 }

/-- A fill record carrying a `time` timestamp. -/
def sampleFill : Fill :=
{ coin := some "BTC", time := some 5000 }

/-! ### Helper lemmas -/

theorem strUpper_B : strUpper "B" = "B" := by decide

theorem truncTowardZero_of_nonneg {x : ℚ} (hx : 0 ≤ x) : truncTowardZero x = ⌊x⌋ := by
  simp [truncTowardZero, hx]

theorem quantize3Down_of_nonneg {x : ℚ} (hx : 0 ≤ x) : quantize3Down x = floor3 x := by
  have h1000 : (0 : ℚ) ≤ x * 1000 := by positivity
  simp [quantize3Down, floor3, truncTowardZero_of_nonneg h1000]

theorem floor3_nonneg {x : ℚ} (hx : 0 ≤ x) : 0 ≤ floor3 x := by
  have : (0 : ℤ) ≤ ⌊x * 1000⌋ := Int.floor_nonneg.mpr (by positivity)
  have : (0 : ℚ) ≤ (⌊x * 1000⌋ : ℚ) := by exact_mod_cast this
  simpa [floor3] using div_nonneg this (by norm_num)

theorem floor3_le (x : ℚ) : floor3 x ≤ x := by
  have h := Int.floor_le (x * 1000)
  rw [floor3, div_le_iff₀ (by norm_num : (0:ℚ) < 1000)]
  exact h

theorem foldl_max_mem (ts : List ℤ) : ∀ t : ℤ, ts.foldl max t ∈ t :: ts := by
  induction ts with
  | nil => intro t; simp
  | cons a as ih =>
    intro t
    have h := ih (max t a)
    simp only [List.foldl_cons]
    rcases List.mem_cons.mp h with h1 | h1
    · rcases max_choice t a with hm | hm
      · rw [h1, hm]; exact List.mem_cons_self _ _
      · rw [h1, hm]; exact List.mem_cons_of_mem _ (List.mem_cons_self _ _)
    · exact List.mem_cons_of_mem _ (List.mem_cons_of_mem _ h1)

theorem le_foldl_max (ts : List ℤ) : ∀ t : ℤ, ∀ u ∈ t :: ts, u ≤ ts.foldl max t := by
  induction ts with
  | nil =>
    intro t u hu
    simp only [List.mem_singleton] at hu
    simp [hu]
  | cons a as ih =>
    intro t u hu
    simp only [List.foldl_cons]
    have hself := ih (max t a) (max t a) (List.mem_cons_self _ _)
    rcases List.mem_cons.mp hu with h1 | h1
    · rw [h1]
      exact le_trans (le_max_left t a) hself
    · rcases List.mem_cons.mp h1 with h2 | h2
      · rw [h2]
        exact le_trans (le_max_right t a) hself
      · exact ih (max t a) u (List.mem_cons_of_mem _ h2)

theorem direction_some_szi_ne_zero {pos : Position} {d : String}
    (h : determine_position_direction pos = some d) : pos.szi.getD 0 ≠ 0 := by
  intro h0
  simp [determine_position_direction, h0] at h

theorem print_long_summary_eq (scaled_orders : List ScaledOrder) (c e r : ℚ)
    (hb : scaled_orders.filter (fun o => strUpper o.side == "B") ≠ []) :
    print_long_summary scaled_orders c e r =
      (let buys := scaled_orders.filter (fun o => strUpper o.side == "B")
       let S := (buys.map ScaledOrder.scaled_size).sum
       let C := (buys.map (fun o => o.scaled_size * o.price)).sum
       some { scaled_current_size := c * r, total_size := S, total_cost := C,
              net_position := c * r + S,
              avg_entry :=
                if 0 < c * r + S then
                  if 0 < c * r then some ((c * r * e + C) / (c * r + S))
                  else some (if 0 < S then C / S else 0)
                else none,
              capital_required := C }) := by
  unfold print_long_summary
  rw [if_neg]
  simpa using hb

/-! ### Claim theorems -/

/-- C1: for every order with non-negative size `s`, limit price `p` and side
`sd`, and every positive ratio `r`, `scale_order` (the body of
`scale_orders`) produces `scaled_size = floor3 (s * r)` — truncation toward
zero at the third decimal place — with `0 ≤ scaled_size ≤ s * r` (never
rounded up), `notional = scaled_size * p`, and side and price passed through
unchanged; at ratio `1` the scaled size is the original size truncated to
three decimals. -/
theorem scale_order_floor3_spec (o : RawOrder) (s p : ℚ) (sd : String) (r : ℚ)
    (hsz : o.sz = some s) (hs : 0 ≤ s) (hpx : o.limitPx = some p)
    (hside : o.side = some sd) (hr : 0 < r) :
    (scale_order r o).scaled_size = floor3 (s * r) ∧
    0 ≤ (scale_order r o).scaled_size ∧
    (scale_order r o).scaled_size ≤ s * r ∧
    (scale_order r o).notional = (scale_order r o).scaled_size * p ∧
    (scale_order r o).price = p ∧
    (scale_order r o).side = sd ∧
    (r = 1 → (scale_order r o).scaled_size = floor3 s) := by
  have habs : |s| = s := abs_of_nonneg hs
  have hprod : (0 : ℚ) ≤ s * r := mul_nonneg hs hr.le
  have hmain : (scale_order r o).scaled_size = floor3 (s * r) := by
    simp [scale_order, hsz, habs, quantize3Down_of_nonneg hprod]
  refine ⟨hmain, ?_, ?_, ?_, ?_, ?_, ?_⟩
  · rw [hmain]; exact floor3_nonneg hprod
  · rw [hmain]; exact floor3_le (s * r)
  · simp [scale_order, hpx]
  · simp [scale_order, hpx]
  · simp [scale_order, hside]
  · intro h1; rw [hmain, h1, mul_one]

/-- Witness for C1 at Scenario B: a single buy order of size `0.333333` at
price `50000` scaled with ratio `1` keeps side and price and truncates the
size down to `0.333` (not `0.334`). -/
theorem scale_order_floor3_spec_witness :
    (scale_order 1 sampleOrderB).scaled_size = 333/1000 ∧
    (scale_order 1 sampleOrderB).side = "B" ∧
    (scale_order 1 sampleOrderB).price = 50000 := by
  have h := scale_order_floor3_spec sampleOrderB
    (333333/1000000) 50000 "B" 1 rfl (by norm_num) rfl rfl (by norm_num)
  refine ⟨?_, h.2.2.2.2.2.1, h.2.2.2.2.1⟩
  rw [h.1]
  norm_num [floor3]

/-- C2: with at least one buy order, the buy-fill projection starts from the
ratio-scaled signed position `c * r`, sums scaled sizes and
`scaled_size * price` over the buy-side orders, reports
`net_position = scaled_current_size + total_buy_size`, reports
`capital_required = total_buy_cost` unconditionally, and when the net
position is positive and the scaled current position is positive reports the
blended average entry `(scaled_current_size * e + total_buy_cost) / net_position`. -/
theorem long_projection_figures (scaled_orders : List ScaledOrder) (c e r : ℚ)
    (_hr : 0 < r)
    (hb : scaled_orders.filter (fun o => strUpper o.side == "B") ≠ []) :
    ∃ s : SideSummary,
      print_long_summary scaled_orders c e r = some s ∧
      s.scaled_current_size = c * r ∧
      s.total_size = ((scaled_orders.filter (fun o => strUpper o.side == "B")).map
        ScaledOrder.scaled_size).sum ∧
      s.total_cost = ((scaled_orders.filter (fun o => strUpper o.side == "B")).map
        (fun o => o.scaled_size * o.price)).sum ∧
      s.net_position = s.scaled_current_size + s.total_size ∧
      s.capital_required = s.total_cost ∧
      (0 < s.net_position → 0 < s.scaled_current_size →
        s.avg_entry = some ((s.scaled_current_size * e + s.total_cost) / s.net_position)) := by
  refine ⟨_, print_long_summary_eq scaled_orders c e r hb, rfl, rfl, rfl, rfl, rfl, ?_⟩
  intro h1 h2
  dsimp only at h1 h2 ⊢
  rw [if_pos h1, if_pos h2]

/-- Witness for C2: one scaled buy order of `0.5` at `50000` on top of a
scaled current long of `0.2` with entry `40000`. -/
theorem long_projection_figures_witness :
    ∃ s : SideSummary,
      print_long_summary [sampleScaledBuy] (1/5) 40000 1 = some s ∧
      s.scaled_current_size = 1/5 * 1 ∧
      s.total_size = (([sampleScaledBuy].filter (fun o => strUpper o.side == "B")).map
        ScaledOrder.scaled_size).sum ∧
      s.total_cost = (([sampleScaledBuy].filter (fun o => strUpper o.side == "B")).map
        (fun o => o.scaled_size * o.price)).sum ∧
      s.net_position = s.scaled_current_size + s.total_size ∧
      s.capital_required = s.total_cost ∧
      (0 < s.net_position → 0 < s.scaled_current_size →
        s.avg_entry = some ((s.scaled_current_size * 40000 + s.total_cost) / s.net_position)) :=
  long_projection_figures [sampleScaledBuy] (1/5) 40000 1 (by norm_num)
    (by simp [sampleScaledBuy, strUpper_B])

/-- C3: whenever the buy-fill projection yields a positive net position from
a short-or-flat scaled current position, the average entry equals
`total_buy_cost / total_buy_size` (not blended with the closed short's
entry), and no average entry is reported when the net position is not
positive. -/
theorem long_projection_avg_entry_cases (scaled_orders : List ScaledOrder)
    (c e r : ℚ) (s : SideSummary)
    (hs : print_long_summary scaled_orders c e r = some s) :
    (0 < s.net_position → s.scaled_current_size ≤ 0 →
      s.avg_entry = some (s.total_cost / s.total_size)) ∧
    (s.net_position ≤ 0 → s.avg_entry = none) := by
  by_cases hb : scaled_orders.filter (fun o => strUpper o.side == "B") = []
  · exfalso
    unfold print_long_summary at hs
    rw [hb] at hs
    simp at hs
  · rw [print_long_summary_eq scaled_orders c e r hb] at hs
    simp only [Option.some.injEq] at hs
    subst hs
    dsimp only
    constructor
    · intro h1 h2
      have hS : 0 < ((scaled_orders.filter (fun o => strUpper o.side == "B")).map
          ScaledOrder.scaled_size).sum := by linarith
      rw [if_pos h1, if_neg (not_lt.mpr h2), if_pos hS]
    · intro h1
      rw [if_neg (not_lt.mpr h1)]

/-- Witness for C3 at Scenario E: current `-0.2`, buys `0.5` costing
`25000` give net `0.3` and average entry `50000 = 25000 / 0.5`; and with
current `-1` the net position `-0.5` is not positive, so no average entry. -/
theorem long_projection_avg_entry_cases_witness :
    print_long_summary [sampleScaledBuy] (-1/5) 60000 1 = some sampleSummaryE ∧
    sampleSummaryE.avg_entry = some (sampleSummaryE.total_cost / sampleSummaryE.total_size) ∧
    sampleSummaryE.avg_entry = some 50000 ∧
    print_long_summary [sampleScaledBuy] (-1) 60000 1 = some sampleSummaryF ∧
    sampleSummaryF.avg_entry = none := by
  have hsE : print_long_summary [sampleScaledBuy] (-1/5) 60000 1 = some sampleSummaryE := by
    rw [print_long_summary_eq _ _ _ _ (by simp [sampleScaledBuy, strUpper_B])]
    norm_num [sampleScaledBuy, sampleSummaryE, strUpper_B]
  have hsF : print_long_summary [sampleScaledBuy] (-1) 60000 1 = some sampleSummaryF := by
    rw [print_long_summary_eq _ _ _ _ (by simp [sampleScaledBuy, strUpper_B])]
    norm_num [sampleScaledBuy, sampleSummaryF, strUpper_B]
  have hE := long_projection_avg_entry_cases [sampleScaledBuy] (-1/5) 60000 1 sampleSummaryE hsE
  have hF := long_projection_avg_entry_cases [sampleScaledBuy] (-1) 60000 1 sampleSummaryF hsF
  refine ⟨hsE, hE.1 (by norm_num [sampleSummaryE]) (by norm_num [sampleSummaryE]), ?_, hsF,
    hF.2 (by norm_num [sampleSummaryF])⟩
  norm_num [sampleSummaryE]

/-- C4: `determine_position_direction` classifies a position as long iff the
signed size is strictly positive, short iff strictly negative, and reports no
direction iff the size is exactly zero. -/
theorem determine_position_direction_trichotomy (p : Position) :
    (determine_position_direction p = some "long" ↔ 0 < p.szi.getD 0) ∧
    (determine_position_direction p = some "short" ↔ p.szi.getD 0 < 0) ∧
    (determine_position_direction p = none ↔ p.szi.getD 0 = 0) := by
  rcases lt_trichotomy (p.szi.getD 0) 0 with h | h | h
  · constructor
    · simp [determine_position_direction, h, not_lt_of_gt h]
    constructor
    · simp [determine_position_direction, h, not_lt_of_gt h]
    · simp [determine_position_direction, h, not_lt_of_gt h, ne_of_lt h]
  · constructor
    · simp [determine_position_direction, h]
    constructor
    · simp [determine_position_direction, h]
    · simp [determine_position_direction, h]
  · constructor
    · simp [determine_position_direction, h]
    constructor
    · simp [determine_position_direction, h, not_lt_of_gt h, ne_of_gt h]
    · simp [determine_position_direction, h, ne_of_gt h]

/-- C10: `scale_orders` is total on arbitrary order records — it keeps the
list length, a missing `sz` or `limitPx` defaults to `0` and a missing
`side` to `""`, and the absolute value of the size is taken before scaling,
so with a positive ratio and a non-negative (or defaulted) price even a
negative order size yields a non-negative `scaled_size` and `notional`. -/
theorem scale_orders_total_defaults (o : RawOrder) (r : ℚ)
    (hr : 0 < r) (hp : 0 ≤ o.limitPx.getD 0) :
    (∀ orders : List RawOrder, (scale_orders orders r).length = orders.length) ∧
    (o.sz = none → (scale_order r o).original_size = 0) ∧
    (o.limitPx = none → (scale_order r o).price = 0) ∧
    (o.side = none → (scale_order r o).side = "") ∧
    (scale_order r o).original_size = |o.sz.getD 0| ∧
    0 ≤ (scale_order r o).scaled_size ∧
    0 ≤ (scale_order r o).notional := by
  have habs : (0 : ℚ) ≤ |o.sz.getD 0| := abs_nonneg _
  have hprod : (0 : ℚ) ≤ |o.sz.getD 0| * r := mul_nonneg habs hr.le
  have hss : 0 ≤ (scale_order r o).scaled_size := by
    simp only [scale_order]
    rw [quantize3Down_of_nonneg hprod]
    exact floor3_nonneg hprod
  refine ⟨?_, ?_, ?_, ?_, ?_, hss, ?_⟩
  · intro orders; simp [scale_orders]
  · intro h; simp [scale_order, h]
  · intro h; simp [scale_order, h]
  · intro h; simp [scale_order, h]
  · simp [scale_order]
  · have hpr : (scale_order r o).price = o.limitPx.getD 0 := by simp [scale_order]
    have : (scale_order r o).notional = (scale_order r o).scaled_size * (scale_order r o).price := by
      simp [scale_order]
    rw [this, hpr]
    exact mul_nonneg hss hp

/-- Witness for C10: an order with a negative size, no price and no side
scales (ratio `2`) to default price `0`, side `""`, non-negative scaled size
and notional. -/
theorem scale_orders_total_defaults_witness :
    (scale_order 2 sampleOrderNeg).price = 0 ∧
    (scale_order 2 sampleOrderNeg).side = "" ∧
    (scale_order 2 sampleOrderNeg).original_size = |(-5 : ℚ)| ∧
    0 ≤ (scale_order 2 sampleOrderNeg).scaled_size ∧
    0 ≤ (scale_order 2 sampleOrderNeg).notional := by
  have h := scale_orders_total_defaults sampleOrderNeg 2 (by norm_num)
    (by norm_num [sampleOrderNeg])
  exact ⟨h.2.2.1 rfl, h.2.2.2.1 rfl, h.2.2.2.2.1, h.2.2.2.2.2.1, h.2.2.2.2.2.2⟩

/-- C5: when the account-derived direction differs from the user-declared
one, the run ends in the direction-mismatch failure naming both directions,
with exit code `1`, before any order scaling or table printing. -/
theorem direction_mismatch_fatal (ud : String) (us : ℚ)
    (st : AccountState) (orders : List RawOrder) (pos : Position) (d : String)
    (hpos : get_btc_position st = some pos)
    (hdir : determine_position_direction pos = some d)
    (hne : d ≠ ud) :
    main ud us st orders = .directionMismatch ud d ∧
    exit_code (main ud us st orders) = 1 ∧
    printed_table (main ud us st orders) = false := by
  have h : main ud us st orders = .directionMismatch ud d := by
    simp only [main, hpos, hdir]
    rw [if_pos hne]
  exact ⟨h, by rw [h]; rfl, by rw [h]; rfl⟩

/-- Witness for C5 at Scenario C: the account is short `0.5` BTC while the
user declares long; the run reports the mismatch naming both directions,
exits with code `1` and prints no table. -/
theorem direction_mismatch_fatal_witness :
    main "long" 1 sampleShortState [sampleOrderB] = .directionMismatch "long" "short" ∧
    exit_code (main "long" 1 sampleShortState [sampleOrderB]) = 1 ∧
    printed_table (main "long" 1 sampleShortState [sampleOrderB]) = false :=
  direction_mismatch_fatal "long" 1 sampleShortState [sampleOrderB]
    samplePositionShort "short"
    (by simp [get_btc_position, sampleShortState, samplePositionShort, List.find?])
    (by norm_num [determine_position_direction, samplePositionShort])
    (by decide)

/-- C6: the ratio computation is guarded against a zero reference size —
the guard yields no ratio when the reference size is zero; a run whose BTC
position has size zero exits fatally (code `1`) with no scaling output; and
any run that does reach scaling (direction matched, pending orders present)
has a non-zero divisor and ratio `user_size / reference_size`. -/
theorem zero_reference_size_guard :
    (∀ (pos : Position) (us : ℚ), get_position_size pos = 0 →
      compute_ratio pos us = none) ∧
    (∀ (ud : String) (us : ℚ) (st : AccountState) (orders : List RawOrder) (pos : Position),
      get_btc_position st = some pos → get_position_size pos = 0 →
      exit_code (main ud us st orders) = 1 ∧ printed_table (main ud us st orders) = false) ∧
    (∀ (ud : String) (us : ℚ) (st : AccountState) (orders : List RawOrder) (pos : Position),
      get_btc_position st = some pos → determine_position_direction pos = some ud →
      get_btc_orders orders ≠ [] →
      get_position_size pos ≠ 0 ∧
      ∃ ls ss, main ud us st orders =
        .success (scale_orders (get_btc_orders orders) (us / get_position_size pos))
          (us / get_position_size pos) ls ss) := by
  refine ⟨?_, ?_, ?_⟩
  · intro pos us h
    simp [compute_ratio, h]
  · intro ud us st orders pos hpos hz
    have h0 : pos.szi.getD 0 = 0 := by simpa [get_position_size, abs_eq_zero] using hz
    have hdir : determine_position_direction pos = none := by
      simp [determine_position_direction, h0]
    have h : main ud us st orders = .noDirection := by
      simp only [main, hpos, hdir]
    rw [h]
    exact ⟨rfl, rfl⟩
  · intro ud us st orders pos hpos hdir hord
    have hz : pos.szi.getD 0 ≠ 0 := direction_some_szi_ne_zero hdir
    have hsz : get_position_size pos ≠ 0 := by
      simpa [get_position_size, abs_eq_zero] using hz
    refine ⟨hsz,
      print_long_summary (scale_orders (get_btc_orders orders) (us / get_position_size pos))
        (pos.szi.getD 0) (pos.entryPx.getD 0) (us / get_position_size pos),
      print_short_summary (scale_orders (get_btc_orders orders) (us / get_position_size pos))
        (pos.szi.getD 0) (pos.entryPx.getD 0) (us / get_position_size pos), ?_⟩
    simp only [main, hpos, hdir, compute_ratio]
    rw [if_neg (by simp : ¬ ud ≠ ud), if_neg (by simpa using hord), if_neg hsz]

/-- Witness for C6: the zero-size guard fires on a zero position; a run on
an account whose BTC size is `0` exits with code `1` and no table; a run on
the long `0.5` BTC account with user size `1` scales with ratio `1 / 0.5`. -/
theorem zero_reference_size_guard_witness :
    compute_ratio sampleZeroPosition 1 = none ∧
    (exit_code (main "long" 1 sampleZeroState [sampleOrderB]) = 1 ∧
      printed_table (main "long" 1 sampleZeroState [sampleOrderB]) = false) ∧
    (get_position_size samplePositionLong ≠ 0 ∧
      ∃ ls ss, main "long" 1 sampleLongState [sampleOrderB] =
        .success (scale_orders (get_btc_orders [sampleOrderB])
            (1 / get_position_size samplePositionLong))
          (1 / get_position_size samplePositionLong) ls ss) := by
  obtain ⟨h1, h2, h3⟩ := zero_reference_size_guard
  refine ⟨h1 sampleZeroPosition 1 ?_, h2 "long" 1 sampleZeroState [sampleOrderB]
    sampleZeroPosition ?_ ?_, h3 "long" 1 sampleLongState [sampleOrderB]
    samplePositionLong ?_ ?_ ?_⟩
  · norm_num [get_position_size, sampleZeroPosition]
  · simp [get_btc_position, sampleZeroState, sampleZeroPosition, List.find?]
  · norm_num [get_position_size, sampleZeroPosition]
  · simp [get_btc_position, sampleLongState, samplePositionLong, List.find?]
  · norm_num [determine_position_direction, samplePositionLong]
  · simp [get_btc_orders, sampleOrderB, List.filter]

/-- C7: when the filtered BTC order list is empty (and the position and
direction checks passed), the run ends successfully with exit code `0` as
the benign "no pending orders" outcome, printing no scaled-order table. -/
theorem no_pending_orders_benign (ud : String) (us : ℚ)
    (st : AccountState) (orders : List RawOrder) (pos : Position) (d : String)
    (hpos : get_btc_position st = some pos)
    (hdir : determine_position_direction pos = some d)
    (heq : d = ud)
    (hord : get_btc_orders orders = []) :
    main ud us st orders = .noPendingOrders ∧
    exit_code (main ud us st orders) = 0 ∧
    printed_table (main ud us st orders) = false := by
  have h : main ud us st orders = .noPendingOrders := by
    simp only [main, hpos, hdir]
    rw [if_neg (by simp [heq]), hord]
    rfl
  exact ⟨h, by rw [h]; rfl, by rw [h]; rfl⟩

/-- Witness for C7 at Scenario D: the long account with only a non-BTC
pending order (empty after filtering) exits successfully with no table. -/
theorem no_pending_orders_benign_witness :
    main "long" 1 sampleLongState [sampleEthOrder] = .noPendingOrders ∧
    exit_code (main "long" 1 sampleLongState [sampleEthOrder]) = 0 ∧
    printed_table (main "long" 1 sampleLongState [sampleEthOrder]) = false :=
  no_pending_orders_benign "long" 1 sampleLongState [sampleEthOrder]
    samplePositionLong "long"
    (by simp [get_btc_position, sampleLongState, samplePositionLong, List.find?])
    (by norm_num [determine_position_direction, samplePositionLong])
    rfl
    (by simp [get_btc_orders, sampleEthOrder, List.filter])

/-- C8: a failed recent-fills fetch is non-fatal — it degrades to the empty
fill list and the run continues exactly as with empty fill data — whereas a
failed account-state fetch or open-orders fetch terminates the run with the
non-zero exit status `1`; fills are the only fetch handled non-fatally. -/
theorem fill_fetch_nonfatal_others_fatal :
    fetch_user_fills .err = [] ∧
    fetch_account_state .err = .error 1 ∧
    fetch_open_orders .err = .error 1 ∧
    (∀ (now : ℚ) (ud : String) (us : ℚ) (r_orders : FetchResult (List RawOrder))
      (r_fills : FetchResult (List Fill)),
      run now ud us .err r_orders r_fills = .error 1) ∧
    (∀ (now : ℚ) (ud : String) (us : ℚ) (st : AccountState)
      (r_fills : FetchResult (List Fill)),
      run now ud us (.ok st) .err r_fills = .error 1) ∧
    (∀ (now : ℚ) (ud : String) (us : ℚ) (st : AccountState) (orders : List RawOrder),
      run now ud us (.ok st) (.ok orders) .err =
        run now ud us (.ok st) (.ok orders) (.ok [])) := by
  refine ⟨rfl, rfl, rfl, ?_, ?_, ?_⟩
  · intro now ud us r_orders r_fills; rfl
  · intro now ud us st r_fills; rfl
  · intro now ud us st orders; rfl

/-- C9: the activity reducer reports the unknown-activity marker exactly
when no timestamp is found in the order and fill lists; otherwise it renders
the maximum collected timestamp, bucketing the elapsed seconds as: under 60
"just now", under an hour minutes, under a day hours, under 7 days days,
under 30 days weeks, else flat 30-day months, each count rendered with the
singular suffix exactly when it equals `1`. -/
theorem last_activity_reduction :
    (∀ (now : ℚ) (orders : List RawOrder) (fills : List Fill),
      (collect_timestamps orders fills = [] →
        get_last_activity_time now orders fills = "Unknown") ∧
      (collect_timestamps orders fills ≠ [] →
        ∃ m, m ∈ collect_timestamps orders fills ∧
          (∀ u ∈ collect_timestamps orders fills, u ≤ m) ∧
          get_last_activity_time now orders fills = get_relative_time now m)) ∧
    (∀ (now : ℚ) (t : ℤ),
      (now - (t : ℚ)/1000 < 60 → get_relative_time now t = "just now") ∧
      (60 ≤ now - (t : ℚ)/1000 → now - (t : ℚ)/1000 < 3600 →
        get_relative_time now t = agoPhrase ⌊(now - (t : ℚ)/1000)/60⌋ "minute") ∧
      (3600 ≤ now - (t : ℚ)/1000 → now - (t : ℚ)/1000 < 86400 →
        get_relative_time now t = agoPhrase ⌊(now - (t : ℚ)/1000)/3600⌋ "hour") ∧
      (86400 ≤ now - (t : ℚ)/1000 → now - (t : ℚ)/1000 < 604800 →
        get_relative_time now t = agoPhrase ⌊(now - (t : ℚ)/1000)/86400⌋ "day") ∧
      (604800 ≤ now - (t : ℚ)/1000 → now - (t : ℚ)/1000 < 2592000 →
        get_relative_time now t = agoPhrase ⌊(now - (t : ℚ)/1000)/604800⌋ "week") ∧
      (2592000 ≤ now - (t : ℚ)/1000 →
        get_relative_time now t = agoPhrase ⌊(now - (t : ℚ)/1000)/2592000⌋ "month")) ∧
    (∀ (n : ℤ) (u : String),
      agoPhrase n u = toString n ++ " " ++ u ++ (if n = 1 then "" else "s") ++ " ago") := by
  refine ⟨?_, ?_, fun n u => rfl⟩
  · intro now orders fills
    constructor
    · intro h
      simp only [get_last_activity_time, h]
    · intro h
      rcases hc : collect_timestamps orders fills with _ | ⟨t, ts⟩
      · exact absurd hc h
      · refine ⟨ts.foldl max t, ?_, ?_, ?_⟩
        · exact foldl_max_mem ts t
        · exact le_foldl_max ts t
        · simp only [get_last_activity_time, hc]
  · intro now t
    have hdiv : ∀ d : ℚ, 0 < d → 0 ≤ now - (t : ℚ)/1000 →
        truncTowardZero ((now - (t : ℚ)/1000)/d) = ⌊(now - (t : ℚ)/1000)/d⌋ := by
      intro d hd hs
      exact truncTowardZero_of_nonneg (div_nonneg hs hd.le)
    refine ⟨?_, ?_, ?_, ?_, ?_, ?_⟩
    · intro h1
      simp only [get_relative_time]
      rw [if_pos h1]
    · intro h1 h2
      simp only [get_relative_time]
      rw [if_neg (not_lt.mpr h1), if_pos h2, hdiv 60 (by norm_num) (by linarith)]
    · intro h1 h2
      simp only [get_relative_time]
      rw [if_neg (not_lt.mpr (by linarith : (60:ℚ) ≤ now - (t : ℚ)/1000)),
        if_neg (not_lt.mpr h1), if_pos h2, hdiv 3600 (by norm_num) (by linarith)]
    · intro h1 h2
      simp only [get_relative_time]
      rw [if_neg (not_lt.mpr (by linarith : (60:ℚ) ≤ now - (t : ℚ)/1000)),
        if_neg (not_lt.mpr (by linarith : (3600:ℚ) ≤ now - (t : ℚ)/1000)),
        if_neg (not_lt.mpr h1), if_pos h2, hdiv 86400 (by norm_num) (by linarith)]
    · intro h1 h2
      simp only [get_relative_time]
      rw [if_neg (not_lt.mpr (by linarith : (60:ℚ) ≤ now - (t : ℚ)/1000)),
        if_neg (not_lt.mpr (by linarith : (3600:ℚ) ≤ now - (t : ℚ)/1000)),
        if_neg (not_lt.mpr (by linarith : (86400:ℚ) ≤ now - (t : ℚ)/1000)),
        if_neg (not_lt.mpr h1), if_pos h2, hdiv 604800 (by norm_num) (by linarith)]
    · intro h1
      simp only [get_relative_time]
      rw [if_neg (not_lt.mpr (by linarith : (60:ℚ) ≤ now - (t : ℚ)/1000)),
        if_neg (not_lt.mpr (by linarith : (3600:ℚ) ≤ now - (t : ℚ)/1000)),
        if_neg (not_lt.mpr (by linarith : (86400:ℚ) ≤ now - (t : ℚ)/1000)),
        if_neg (not_lt.mpr (by linarith : (604800:ℚ) ≤ now - (t : ℚ)/1000)),
        if_neg (not_lt.mpr h1), hdiv 2592000 (by norm_num) (by linarith)]

/-- Witness for C9: empty lists give `"Unknown"`; an order stamped `1000`
and a fill stamped `5000` reduce to the maximum `5000`; at elapsed times of
30 seconds and 2 hours the renderer gives "just now" and "2 hours ago". -/
theorem last_activity_reduction_witness :
    get_last_activity_time 0 [] [] = "Unknown" ∧
    (∃ m, m ∈ collect_timestamps [sampleOrderT] [sampleFill] ∧
      (∀ u ∈ collect_timestamps [sampleOrderT] [sampleFill], u ≤ m) ∧
      get_last_activity_time 100 [sampleOrderT] [sampleFill] =
        get_relative_time 100 m) ∧
    get_relative_time 30 0 = "just now" ∧
    get_relative_time 7200 0 = "2 hours ago" := by
  obtain ⟨hred, hbuckets, hphrase⟩ := last_activity_reduction
  refine ⟨(hred 0 [] []).1 rfl, (hred 100 [sampleOrderT] [sampleFill]).2
    (by simp [collect_timestamps, sampleOrderT, sampleFill]), ?_, ?_⟩
  · exact (hbuckets 30 0).1 (by norm_num)
  · have h := (hbuckets 7200 0).2.2.1 (by norm_num) (by norm_num)
    rw [h]
    norm_num
    rfl

end ScaleOrders
